import Mathlib

/-
  Verification of the Snake Lite game state (src/main.py).

  The game state and its operations (setup/reset, step_snake/advance,
  try_set_direction, update_level_and_speed, spawn_food) are embedded as
  pure Lean functions.  Python ints are modelled as ℤ/ℕ and Python floats
  as exact rationals (ℚ).  The randomness of `random.randrange` is
  modelled by oracle parameters: the random start cell and the food cell
  become explicit arguments, constrained exactly as `randrange` and the
  retry loop of `random_grid_position` constrain them.
-/

namespace SnakeLite

/-- A grid position `(col, row)`, as in the source's `(col, row)` tuples. -/
abbrev Pos := ℤ × ℤ

-- Configuration constants from src/main.py lines 23-33.
def SCREEN_WIDTH : ℤ := 800

def SCREEN_HEIGHT : ℤ := 600

def CELL_SIZE : ℤ := 20

def UI_HEIGHT : ℤ := 50

def GRID_COLS : ℤ := SCREEN_WIDTH / CELL_SIZE

def GRID_ROWS : ℤ := (SCREEN_HEIGHT - UI_HEIGHT) / CELL_SIZE

def MOVE_INTERVAL_START : ℚ := 0.20

def MOVE_INTERVAL_MIN : ℚ := 0.06

/-- `clamp` from src/main.py: `max(min_value, min(value, max_value))`. -/
def clamp (value min_value max_value : ℚ) : ℚ :=
  max min_value (min value max_value)

/-- The screen-space y coordinate of a cell's center, as computed inside
`random_grid_position` (`pos[1] * CELL_SIZE + CELL_SIZE / 2`). -/
def screen_y (p : Pos) : ℤ := p.2 * CELL_SIZE + CELL_SIZE / 2

/-- `ui_boundary = SCREEN_HEIGHT - UI_HEIGHT` from `random_grid_position`. -/
def ui_boundary : ℤ := SCREEN_HEIGHT - UI_HEIGHT

/-- The acceptance test of the retry loop in `random_grid_position`:
`pos not in excluded and screen_y < ui_boundary`. -/
def qualifies (excluded : List Pos) (p : Pos) : Prop :=
  p ∉ excluded ∧ screen_y p < ui_boundary

instance (excluded : List Pos) (p : Pos) : Decidable (qualifies excluded p) :=
  inferInstanceAs (Decidable (p ∉ excluded ∧ screen_y p < ui_boundary))

/-- Candidates proposed by `random.randrange(0, GRID_COLS)` /
`random.randrange(0, GRID_ROWS)` always lie in this range. -/
def in_grid (p : Pos) : Prop :=
  0 ≤ p.1 ∧ p.1 < GRID_COLS ∧ 0 ≤ p.2 ∧ p.2 < GRID_ROWS

instance (p : Pos) : Decidable (in_grid p) :=
  inferInstanceAs (Decidable (0 ≤ p.1 ∧ p.1 < GRID_COLS ∧ 0 ≤ p.2 ∧ p.2 < GRID_ROWS))

/-- `random_grid_position` from src/main.py.  The RNG is modelled as a
stream `picks : ℕ → Pos` of candidate cells (the successive
`randrange` draws); the loop returns the first candidate passing the
`qualifies` test.  The hypothesis `h` states that some draw qualifies,
which is exactly what makes the unbounded `while True` loop terminate. -/
def random_grid_position (excluded : List Pos) (picks : ℕ → Pos)
    (h : ∃ i, qualifies excluded (picks i)) : Pos :=
  picks (Nat.find h)

/-- The game state: the fields of `SnakeGame` that the game logic
mutates (src/main.py lines 69-84; `time_since_move` only gates how often
`step_snake` runs and is not part of any claim). -/
structure GameState where
  score : ℕ
  level : ℕ
  game_over : Bool
  snake : List Pos
  direction : Pos
  next_direction : Pos
  food : Pos
  move_interval : ℚ
deriving DecidableEq, Repr

/-- The new head cell `(head_col + dx, head_row + dy)` computed by
`step_snake` after committing the buffered direction. -/
def new_head_of (s : GameState) : Pos :=
  (s.snake.headI.1 + s.next_direction.1, s.snake.headI.2 + s.next_direction.2)

/-- `update_level_and_speed` from src/main.py lines 209-222. -/
def update_level_and_speed (s : GameState) : GameState :=
  let new_level := 1 + s.score / 5
  let level' := if new_level ≠ s.level then new_level else s.level
  { s with
    level := level'
    move_interval :=
      clamp (MOVE_INTERVAL_START - ((level' : ℚ) - 1) * 0.02)
        MOVE_INTERVAL_MIN MOVE_INTERVAL_START }

/-- `step_snake` from src/main.py lines 174-207.  `pick` is the cell the
RNG hands to `spawn_food` when the food is eaten (constrained by
`qualifies`/`in_grid` at the call sites, see `Reach`). -/
def step_snake (pick : Pos) (s : GameState) : GameState :=
  if ¬ in_grid (new_head_of s) then
    { s with direction := s.next_direction, game_over := true }
  else if new_head_of s ∈ s.snake then
    { s with direction := s.next_direction, game_over := true }
  else if new_head_of s = s.food then
    update_level_and_speed
      { s with
        direction := s.next_direction
        snake := new_head_of s :: s.snake
        score := s.score + 1
        food := pick }
  else
    { s with
      direction := s.next_direction
      snake := (new_head_of s :: s.snake).dropLast }

/-- One movement tick as driven by `on_update` (src/main.py lines
163-172): a no-op while `game_over`, otherwise `step_snake`. -/
def advance (pick : Pos) (s : GameState) : GameState :=
  if s.game_over then s else step_snake pick s

/-- `try_set_direction` guarded by `on_key_press`'s `game_over` check
(src/main.py lines 224-252): ignored while game over, ignored on a
direct reversal of the committed direction, otherwise stores the
pending direction. -/
def set_direction (d : Pos) (s : GameState) : GameState :=
  if s.game_over then s
  else if d = (-s.direction.1, -s.direction.2) then s
  else { s with next_direction := d }

/-- The initial three-segment snake laid out by `setup`
(src/main.py lines 95-99). -/
def init_snake (c r : ℤ) : List Pos := [(c, r), (c - 1, r), (c - 2, r)]

/-- The state produced by `setup` (src/main.py lines 86-109), with the
random start cell `(c, r)` and the food cell chosen by `spawn_food`
made explicit. -/
def setup_state (c r : ℤ) (food : Pos) : GameState :=
  { score := 0
    level := 1
    game_over := false
    snake := init_snake c r
    direction := (1, 0)
    next_direction := (1, 0)
    food := food
    move_interval := MOVE_INTERVAL_START }

/-- What `spawn_food` guarantees about the cell it stores in
`self.food`: the cell comes from `randrange` (hence in the grid) and
passes the retry loop's test against `excluded = set(self.snake)`. -/
def spawn_ok (excluded : List Pos) (p : Pos) : Prop :=
  in_grid p ∧ qualifies excluded p

instance (excluded : List Pos) (p : Pos) : Decidable (spawn_ok excluded p) :=
  inferInstanceAs (Decidable (in_grid p ∧ qualifies excluded p))

/-- The tick `advance` takes the eating branch (wall and self collision
checks pass and the new head is the food cell). -/
def eats_food (s : GameState) : Prop :=
  s.game_over = false ∧ in_grid (new_head_of s) ∧
    new_head_of s ∉ s.snake ∧ new_head_of s = s.food

instance (s : GameState) : Decidable (eats_food s) :=
  inferInstanceAs (Decidable (s.game_over = false ∧ in_grid (new_head_of s) ∧
    new_head_of s ∉ s.snake ∧ new_head_of s = s.food))

/-- The four direction vectors `on_key_press` can request. -/
def arrow_dirs : List Pos := [(0, 1), (0, -1), (-1, 0), (1, 0)]

/-- Reachable game states.  `reset` is `setup` (callable at any time and
independent of the prior state, so it is a base case): the start cell
ranges are those of `randrange(2, GRID_COLS - 2)` and
`randrange(1, GRID_ROWS - 1)`, and the food pick satisfies
`spawn_food`'s guarantee against the fresh snake.  `tick` is a
movement tick, whose food pick (used only when food is eaten) satisfies
`spawn_food`'s guarantee against the grown snake.  `key` is an arrow
key press. -/
inductive Reach : GameState → Prop where
  | reset : ∀ (c r : ℤ) (food : Pos),
      2 ≤ c → c < GRID_COLS - 2 → 1 ≤ r → r < GRID_ROWS - 1 →
      spawn_ok (init_snake c r) food →
      Reach (setup_state c r food)
  | tick : ∀ (s : GameState) (pick : Pos), Reach s →
      (eats_food s → spawn_ok (new_head_of s :: s.snake) pick) →
      Reach (advance pick s)
  | key : ∀ (s : GameState) (d : Pos), Reach s →
      d ∈ arrow_dirs → Reach (set_direction d s)

/-- The move interval `update_level_and_speed` computes for a given
score, as an exact rational. -/
def interval_of (score : ℕ) : ℚ :=
  clamp (MOVE_INTERVAL_START - (((1 + score / 5 : ℕ) : ℚ) - 1) * 0.02)
    MOVE_INTERVAL_MIN MOVE_INTERVAL_START

lemma update_level_and_speed_eq (s : GameState) :
    update_level_and_speed s =
      { s with level := 1 + s.score / 5, move_interval := interval_of s.score } := by
  unfold update_level_and_speed interval_of
  by_cases h : (1 + s.score / 5) = s.level
  · simp only [h, ne_eq, not_true_eq_false, if_false]
  · simp only [ne_eq, h, not_false_iff, if_true]

lemma step_snake_wall (pick : Pos) (s : GameState)
    (h1 : ¬ in_grid (new_head_of s)) :
    step_snake pick s = { s with direction := s.next_direction, game_over := true } := by
  unfold step_snake
  rw [if_pos h1]

lemma step_snake_self (pick : Pos) (s : GameState)
    (h1 : in_grid (new_head_of s)) (h2 : new_head_of s ∈ s.snake) :
    step_snake pick s = { s with direction := s.next_direction, game_over := true } := by
  unfold step_snake
  rw [if_neg (not_not_intro h1), if_pos h2]

lemma step_snake_eat (pick : Pos) (s : GameState)
    (h1 : in_grid (new_head_of s)) (h2 : new_head_of s ∉ s.snake)
    (h3 : new_head_of s = s.food) :
    step_snake pick s =
      update_level_and_speed
        { s with
          direction := s.next_direction
          snake := new_head_of s :: s.snake
          score := s.score + 1
          food := pick } := by
  unfold step_snake
  rw [if_neg (not_not_intro h1), if_neg h2, if_pos h3]

lemma step_snake_move (pick : Pos) (s : GameState)
    (h1 : in_grid (new_head_of s)) (h2 : new_head_of s ∉ s.snake)
    (h3 : new_head_of s ≠ s.food) :
    step_snake pick s =
      { s with
        direction := s.next_direction
        snake := (new_head_of s :: s.snake).dropLast } := by
  unfold step_snake
  rw [if_neg (not_not_intro h1), if_neg h2, if_neg h3]

lemma le_clamp (v lo hi : ℚ) : lo ≤ clamp v lo hi := le_max_left _ _

lemma clamp_le (v lo hi : ℚ) (h : lo ≤ hi) : clamp v lo hi ≤ hi :=
  max_le h (min_le_right _ _)

lemma clamp_mono (v w lo hi : ℚ) (h : v ≤ w) : clamp v lo hi ≤ clamp w lo hi :=
  max_le_max le_rfl (min_le_min h le_rfl)

lemma interval_of_antitone {a b : ℕ} (h : a ≤ b) :
    interval_of b ≤ interval_of a := by
  unfold interval_of
  apply clamp_mono
  have h5 : ((1 + a / 5 : ℕ) : ℚ) ≤ ((1 + b / 5 : ℕ) : ℚ) := by
    exact_mod_cast Nat.add_le_add_left (Nat.div_le_div_right h) 1
  have h6 : (((1 + a / 5 : ℕ) : ℚ) - 1) * 0.02 ≤ (((1 + b / 5 : ℕ) : ℚ) - 1) * 0.02 := by
    apply mul_le_mul_of_nonneg_right _ (by norm_num)
    linarith
  linarith

lemma interval_of_zero : interval_of 0 = MOVE_INTERVAL_START := by
  unfold interval_of clamp MOVE_INTERVAL_MIN MOVE_INTERVAL_START
  norm_num

lemma interval_of_mem (score : ℕ) :
    MOVE_INTERVAL_MIN ≤ interval_of score ∧ interval_of score ≤ MOVE_INTERVAL_START :=
  ⟨le_clamp _ _ _, clamp_le _ _ _ (by unfold MOVE_INTERVAL_MIN MOVE_INTERVAL_START; norm_num)⟩

/-- The inductive invariant of reachable states: a nonempty,
duplicate-free snake; food off the snake and inside the grid; level and
move interval determined by the score; and snake length `3 + score`. -/
def Inv (s : GameState) : Prop :=
  s.snake ≠ [] ∧ s.snake.Nodup ∧ s.food ∉ s.snake ∧ in_grid s.food ∧
    s.level = 1 + s.score / 5 ∧ s.move_interval = interval_of s.score ∧
    s.snake.length = 3 + s.score

lemma reach_inv {s : GameState} (h : Reach s) : Inv s := by
  induction h with
  | reset c r food hc1 hc2 hr1 hr2 hf =>
      obtain ⟨hin, hnot, hy⟩ := hf
      refine ⟨by simp [setup_state, init_snake], ?_, ?_, hin, by simp [setup_state],
        (interval_of_zero).symm, rfl⟩
      · simp only [setup_state, init_snake, List.nodup_cons, List.mem_cons,
          List.mem_singleton, List.not_mem_nil, not_false_iff, and_true,
          List.nodup_nil, Prod.mk.injEq, not_or]
        refine ⟨⟨?_, ?_⟩, ?_⟩ <;> intro hcontra <;> omega
      · simpa [setup_state] using hnot
  | tick s pick hs hpick ih =>
      unfold advance
      by_cases hgo : s.game_over = true
      · rw [if_pos hgo]; exact ih
      · rw [if_neg hgo]
        have hgo' : s.game_over = false := by simpa using hgo
        by_cases h1 : in_grid (new_head_of s)
        · by_cases h2 : new_head_of s ∈ s.snake
          · rw [step_snake_self pick s h1 h2]; exact ih
          · obtain ⟨hne, hnd, hfn, hfin, hlv, hmi, hlen⟩ := ih
            by_cases h3 : new_head_of s = s.food
            · rw [step_snake_eat pick s h1 h2 h3, update_level_and_speed_eq]
              obtain ⟨hpin, hpnot, hpy⟩ := hpick ⟨hgo', h1, h2, h3⟩
              refine ⟨by simp, List.nodup_cons.mpr ⟨h2, hnd⟩, hpnot, hpin, rfl, rfl, ?_⟩
              show (new_head_of s :: s.snake).length = 3 + (s.score + 1)
              simp [hlen]
              omega
            · rw [step_snake_move pick s h1 h2 h3]
              have hlen' : (new_head_of s :: s.snake).dropLast.length = s.snake.length := by
                simp [List.length_dropLast]
              refine ⟨?_, ?_, ?_, hfin, hlv, hmi, ?_⟩
              · show (new_head_of s :: s.snake).dropLast ≠ []
                rw [← List.length_pos_iff_ne_nil, hlen', List.length_pos_iff_ne_nil]
                exact hne
              · exact (List.nodup_cons.mpr ⟨h2, hnd⟩).sublist (List.dropLast_sublist _)
              · show s.food ∉ (new_head_of s :: s.snake).dropLast
                intro hmem
                rcases List.mem_cons.mp ((List.dropLast_sublist _).subset hmem) with hcase | hcase
                · exact h3 hcase.symm
                · exact hfn hcase
              · show (new_head_of s :: s.snake).dropLast.length = 3 + s.score
                rw [hlen', hlen]
        · rw [step_snake_wall pick s h1]; exact ih
  | key s d hs hd ih =>
      unfold set_direction
      split_ifs <;> exact ih

-- Concrete states used by the witness theorems.

/-- A fresh state produced by `setup` with start cell `(5, 5)` and food
at `(10, 10)`. -/
def demo0 : GameState := setup_state 5 5 (10, 10)

lemma reach_demo0 : Reach demo0 :=
  Reach.reset 5 5 (10, 10) (by decide) (by decide) (by decide) (by decide) (by decide)

/-- A running state whose next head cell is the cell currently occupied
by its own tail segment. -/
def demo_loop : GameState :=
  { score := 1
    level := 1
    game_over := false
    snake := [(5, 5), (5, 6), (6, 6), (6, 5)]
    direction := (1, 0)
    next_direction := (1, 0)
    food := (10, 10)
    move_interval := 0.2 }

/-- A running state whose head sits on the right boundary, moving
right: the next head cell `(40, 5)` is off the grid. -/
def demo_edge : GameState :=
  { score := 0
    level := 1
    game_over := false
    snake := [(39, 5), (38, 5), (37, 5)]
    direction := (1, 0)
    next_direction := (1, 0)
    food := (10, 10)
    move_interval := 0.2 }

/-- A game-over state. -/
def demo_over : GameState := { demo_edge with game_over := true }

/-- A running state with score 4 about to eat its fifth food. -/
def demo_four : GameState :=
  { score := 4
    level := 1
    game_over := false
    snake := [(5, 5), (4, 5), (3, 5)]
    direction := (1, 0)
    next_direction := (1, 0)
    food := (6, 5)
    move_interval := 0.2 }

-- Claim theorems.

/-- C1: in every reachable state with the game-over flag false, the
snake list has no duplicate positions; and any tick whose new head
would duplicate an existing segment sets the game-over flag instead. -/
theorem snake_nodup_of_running (s : GameState) (pick : Pos)
    (h : Reach s) (hgo : s.game_over = false) :
    s.snake.Nodup ∧
      (in_grid (new_head_of s) → new_head_of s ∈ s.snake →
        (advance pick s).game_over = true) := by
  refine ⟨(reach_inv h).2.1, fun h1 h2 => ?_⟩
  unfold advance
  rw [if_neg (by simp [hgo]), step_snake_self pick s h1 h2]

theorem snake_nodup_of_running_witness :
    demo0.snake.Nodup ∧
      (in_grid (new_head_of demo0) → new_head_of demo0 ∈ demo0.snake →
        (advance (0, 0) demo0).game_over = true) :=
  snake_nodup_of_running demo0 (0, 0) reach_demo0 rfl

/-- C2: in a running state, if the new head equals the cell occupied by
the snake's own tail segment, the tick sets the game-over flag and
leaves the snake, food and score unchanged: the self-collision check is
made against the full pre-move body, tail included. -/
theorem tail_cell_move_is_collision (s : GameState) (pick : Pos)
    (hgo : s.game_over = false) (hne : s.snake ≠ [])
    (htail : new_head_of s = s.snake.getLast hne) :
    (advance pick s).game_over = true ∧ (advance pick s).snake = s.snake ∧
      (advance pick s).food = s.food ∧ (advance pick s).score = s.score := by
  have hmem : new_head_of s ∈ s.snake := by
    rw [htail]; exact List.getLast_mem hne
  unfold advance
  rw [if_neg (by simp [hgo])]
  by_cases h1 : in_grid (new_head_of s)
  · rw [step_snake_self pick s h1 hmem]
    exact ⟨rfl, rfl, rfl, rfl⟩
  · rw [step_snake_wall pick s h1]
    exact ⟨rfl, rfl, rfl, rfl⟩

theorem tail_cell_move_is_collision_witness :
    (advance (0, 0) demo_loop).game_over = true ∧
      (advance (0, 0) demo_loop).snake = demo_loop.snake ∧
      (advance (0, 0) demo_loop).food = demo_loop.food ∧
      (advance (0, 0) demo_loop).score = demo_loop.score :=
  tail_cell_move_is_collision demo_loop (0, 0) rfl (by decide) (by decide)

/-- C3: in a running state whose new head cell lies off the grid, one
tick sets the game-over flag while leaving the snake, food, score and
level unchanged; and while the game-over flag is true a tick changes
nothing at all. -/
theorem wall_collision_sets_game_over_and_freezes
    (s t : GameState) (pick pick' : Pos)
    (hgo : s.game_over = false) (hout : ¬ in_grid (new_head_of s))
    (hgt : t.game_over = true) :
    ((advance pick s).game_over = true ∧ (advance pick s).snake = s.snake ∧
        (advance pick s).food = s.food ∧ (advance pick s).score = s.score ∧
        (advance pick s).level = s.level) ∧
      advance pick' t = t := by
  constructor
  · unfold advance
    rw [if_neg (by simp [hgo]), step_snake_wall pick s hout]
    exact ⟨rfl, rfl, rfl, rfl, rfl⟩
  · unfold advance
    rw [if_pos hgt]

theorem wall_collision_sets_game_over_and_freezes_witness :
    ((advance (0, 0) demo_edge).game_over = true ∧
        (advance (0, 0) demo_edge).snake = demo_edge.snake ∧
        (advance (0, 0) demo_edge).food = demo_edge.food ∧
        (advance (0, 0) demo_edge).score = demo_edge.score ∧
        (advance (0, 0) demo_edge).level = demo_edge.level) ∧
      advance (1, 1) demo_over = demo_over :=
  wall_collision_sets_game_over_and_freezes demo_edge demo_over (0, 0) (1, 1)
    rfl (by decide) rfl

/-- C4: in every reachable state, the level equals `1 + score / 5`. -/
theorem level_eq_one_add_score_div_five (s : GameState) (h : Reach s) :
    s.level = 1 + s.score / 5 :=
  (reach_inv h).2.2.2.2.1

theorem level_eq_one_add_score_div_five_witness :
    demo0.level = 1 + demo0.score / 5 :=
  level_eq_one_add_score_div_five demo0 reach_demo0

/-- C5: in every reachable state the move interval lies within
`[0.06, 0.20]`; a tick never increases it, and a direction change never
alters it (so within one episode it is non-increasing as score
increases). -/
theorem move_interval_bounded_and_nonincreasing (s : GameState)
    (pick d : Pos) (h : Reach s) :
    ((0.06 : ℚ) ≤ s.move_interval ∧ s.move_interval ≤ 0.20) ∧
      (advance pick s).move_interval ≤ s.move_interval ∧
      (set_direction d s).move_interval = s.move_interval := by
  have hmi : s.move_interval = interval_of s.score := (reach_inv h).2.2.2.2.2.1
  refine ⟨?_, ?_, ?_⟩
  · rw [hmi]
    exact interval_of_mem s.score
  · unfold advance
    by_cases hgo : s.game_over = true
    · rw [if_pos hgo]
    · rw [if_neg hgo]
      by_cases h1 : in_grid (new_head_of s)
      · by_cases h2 : new_head_of s ∈ s.snake
        · rw [step_snake_self pick s h1 h2]
        · by_cases h3 : new_head_of s = s.food
          · rw [step_snake_eat pick s h1 h2 h3, update_level_and_speed_eq]
            show interval_of (s.score + 1) ≤ s.move_interval
            rw [hmi]
            exact interval_of_antitone (Nat.le_succ _)
          · rw [step_snake_move pick s h1 h2 h3]
      · rw [step_snake_wall pick s h1]
  · unfold set_direction
    split_ifs <;> rfl

theorem move_interval_bounded_and_nonincreasing_witness :
    ((0.06 : ℚ) ≤ demo0.move_interval ∧ demo0.move_interval ≤ 0.20) ∧
      (advance (0, 0) demo0).move_interval ≤ demo0.move_interval ∧
      (set_direction (0, 1) demo0).move_interval = demo0.move_interval :=
  move_interval_bounded_and_nonincreasing demo0 (0, 0) (0, 1) reach_demo0

/-- C6: the tick that raises the score from 4 to 5 (eating the fifth
food) sets the level to 2 and the move interval to exactly 0.18. -/
theorem score_five_level_two_interval (s : GameState) (pick : Pos)
    (hscore : s.score = 4) (heat : eats_food s) :
    (advance pick s).score = 5 ∧ (advance pick s).level = 2 ∧
      (advance pick s).move_interval = 0.18 := by
  obtain ⟨hgo, h1, h2, h3⟩ := heat
  unfold advance
  rw [if_neg (by simp [hgo]), step_snake_eat pick s h1 h2 h3,
    update_level_and_speed_eq]
  refine ⟨?_, ?_, ?_⟩
  · show s.score + 1 = 5
    omega
  · show 1 + (s.score + 1) / 5 = 2
    omega
  · show interval_of (s.score + 1) = 0.18
    rw [hscore]
    unfold interval_of clamp MOVE_INTERVAL_START MOVE_INTERVAL_MIN
    norm_num

theorem score_five_level_two_interval_witness :
    (advance (10, 10) demo_four).score = 5 ∧
      (advance (10, 10) demo_four).level = 2 ∧
      (advance (10, 10) demo_four).move_interval = 0.18 :=
  score_five_level_two_interval demo_four (10, 10) rfl (by decide)

/-- C7: a direction request is ignored while the game is over, and
ignored when it is the exact opposite of the committed direction;
otherwise it only updates the pending direction.  In every case the
committed direction is untouched (it changes only at the next tick). -/
theorem set_direction_rejects_reverse_and_game_over (s : GameState) (d : Pos) :
    (s.game_over = true → set_direction d s = s) ∧
      (d = (-s.direction.1, -s.direction.2) → set_direction d s = s) ∧
      (s.game_over = false → d ≠ (-s.direction.1, -s.direction.2) →
        set_direction d s = { s with next_direction := d }) ∧
      (set_direction d s).direction = s.direction := by
  refine ⟨fun hg => ?_, fun hrev => ?_, fun hg hne => ?_, ?_⟩
  · unfold set_direction
    rw [if_pos hg]
  · unfold set_direction
    by_cases hg : s.game_over = true
    · rw [if_pos hg]
    · rw [if_neg hg, if_pos hrev]
  · unfold set_direction
    rw [if_neg (by simp [hg]), if_neg hne]
  · unfold set_direction
    split_ifs <;> rfl

theorem set_direction_rejects_reverse_and_game_over_witness :
    set_direction (0, 1) demo0 = { demo0 with next_direction := (0, 1) } :=
  (set_direction_rejects_reverse_and_game_over demo0 (0, 1)).2.2.1 rfl (by decide)

/-- C8: in every reachable state, the food lies on no snake segment and
its row is within `[0, GRID_ROWS)` (outside the reserved UI strip). -/
theorem food_not_on_snake_and_in_rows (s : GameState) (h : Reach s) :
    s.food ∉ s.snake ∧ 0 ≤ s.food.2 ∧ s.food.2 < GRID_ROWS := by
  obtain ⟨-, -, hfn, hfin, -, -, -⟩ := reach_inv h
  exact ⟨hfn, hfin.2.2.1, hfin.2.2.2⟩

theorem food_not_on_snake_and_in_rows_witness :
    demo0.food ∉ demo0.snake ∧ 0 ≤ demo0.food.2 ∧ demo0.food.2 < GRID_ROWS :=
  food_not_on_snake_and_in_rows demo0 reach_demo0

/-- C9: if some in-grid cell outside the excluded set and outside the
UI strip exists, and the candidate stream (the successive `randrange`
draws) stays in the grid and eventually proposes every in-grid cell,
then the retry loop of `random_grid_position` terminates and returns a
qualifying in-grid cell. -/
theorem random_grid_position_finds_qualifying (excluded : List Pos)
    (picks : ℕ → Pos)
    (hrange : ∀ i, in_grid (picks i))
    (hfair : ∀ p, in_grid p → ∃ i, picks i = p)
    (hfree : ∃ p, in_grid p ∧ qualifies excluded p) :
    ∃ h : ∃ i, qualifies excluded (picks i),
      in_grid (random_grid_position excluded picks h) ∧
        qualifies excluded (random_grid_position excluded picks h) := by
  obtain ⟨p, hp, hq⟩ := hfree
  obtain ⟨i, hi⟩ := hfair p hp
  have hex : ∃ j, qualifies excluded (picks j) := ⟨i, by rw [hi]; exact hq⟩
  exact ⟨hex, hrange _, Nat.find_spec hex⟩

/-- A fair candidate stream: column cycles through `0..39`, row through
`0..26`; every in-grid cell is proposed at index `col + 40 * row`. -/
def pick_stream : ℕ → Pos :=
  fun i => (((i % 40 : ℕ) : ℤ), ((i / 40 % 27 : ℕ) : ℤ))

lemma grid_cols_eq : GRID_COLS = 40 := by decide

lemma grid_rows_eq : GRID_ROWS = 27 := by decide

lemma pick_stream_in_grid (i : ℕ) : in_grid (pick_stream i) := by
  simp only [pick_stream, in_grid, grid_cols_eq, grid_rows_eq]
  omega

lemma pick_stream_fair (p : Pos) (hp : in_grid p) : ∃ i, pick_stream i = p := by
  obtain ⟨x, y⟩ := p
  simp only [in_grid, grid_cols_eq, grid_rows_eq] at hp
  refine ⟨x.toNat + 40 * y.toNat, ?_⟩
  simp only [pick_stream, Prod.mk.injEq]
  constructor <;> omega

theorem random_grid_position_finds_qualifying_witness :
    ∃ h : ∃ i, qualifies [(5, 5)] (pick_stream i),
      in_grid (random_grid_position [(5, 5)] pick_stream h) ∧
        qualifies [(5, 5)] (random_grid_position [(5, 5)] pick_stream h) :=
  random_grid_position_finds_qualifying [(5, 5)] pick_stream
    pick_stream_in_grid pick_stream_fair ⟨(0, 0), by decide, by decide⟩

/-- C10: in every reachable state with the game-over flag false, the
snake's length equals `3 + score`. -/
theorem snake_length_three_plus_score (s : GameState) (h : Reach s)
    (hgo : s.game_over = false) :
    s.snake.length = 3 + s.score :=
  (reach_inv h).2.2.2.2.2.2

theorem snake_length_three_plus_score_witness :
    demo0.snake.length = 3 + demo0.score :=
  snake_length_three_plus_score demo0 reach_demo0 rfl

end SnakeLite
